import Mathlib

/-!
Verification of the masker signal-extraction pipeline and the matrix-plotting
helpers of the nilearn repository.

The embedding covers:

* `SurfaceMasker` (fit / transform / inverse_transform on surface images),
* `SurfaceMapsMasker` (least-squares signal extraction against region maps),
* `NiftiLabelsMasker`-style label reduction and
  `MultiNiftiLabelsMasker.transform_imgs` / `transform`,
* `pad_contrast_matrix` and the `reorder` handling of `plot_matrix`
  (`_sanitize_reorder`, `_sanitize_labels`, `_reorder_matrix`).

Numeric arrays are embedded as total functions `ℕ → ℕ → ℚ` carrying their
shape; only entries below the bounds are meaningful.  Fallible Python code
(raising `ValueError`) is embedded with `Except String`.
-/

namespace Nilearn

/-- A 2D numeric array with shape `rows × cols`; entries are given by a total
function, meaningful below the bounds. -/
structure Mat2 where
  rows : ℕ
  cols : ℕ
  entry : ℕ → ℕ → ℚ

/-- A surface image: data of shape `(n_vertices, n_timepoints)`, vertex-major
(concatenating the mesh parts, e.g. left then right hemisphere). -/
structure SurfImage where
  nV : ℕ
  nT : ℕ
  data : ℕ → ℕ → ℚ

/-- A surface mask: a number of vertices and one boolean per vertex. -/
structure SurfMask where
  n : ℕ
  m : ℕ → Bool

/-- The error message raised when the number of vertices of a mask and an
image disagree (the tests match it with the pattern "Number of vertices"). -/
def vertexMismatchMsg : String :=
  "Number of vertices do not match between mask and img."

/-- The vertices selected by a mask over `n` vertices, in increasing order. -/
def maskedList (mask : ℕ → Bool) (n : ℕ) : List ℕ :=
  (List.range n).filter mask

/-- Number of selected vertices strictly below vertex `v`: the position of a
selected vertex `v` inside `maskedList`. -/
def rankBelow (mask : ℕ → Bool) (v : ℕ) : ℕ :=
  ((List.range v).filter mask).length

/-- Modelled from the spec: `SurfaceMasker.fit` is not under `src/` (only its
tests are).  Per the spec, the fitted mask must have the same number of
vertices as the image ("number of vertices or voxels must match between mask,
labels, and data images"); fitting with no mask and no image is an error
("provide either"); fitting with no mask keeps every vertex of the image, so
that the reduction removes no data and is invertible. -/
def surfaceMaskerFit (maskOpt : Option SurfMask) (imgOpt : Option SurfImage) :
    Except String SurfMask :=
  match maskOpt, imgOpt with
  | none, none => Except.error "Please provide either a mask_img or an img to fit."
  | some mk, none => Except.ok mk
  | some mk, some img =>
      if img.nV ≠ mk.n then Except.error vertexMismatchMsg else Except.ok mk
  | none, some img => Except.ok ⟨img.nV, fun _ => true⟩

/-- Modelled from the spec: `SurfaceMasker.transform` is not under `src/`.
It checks that the image has the same number of vertices as the fitted mask,
then reduces the image to a 2D signal matrix of shape
`(n_timepoints, n_selected_vertices)` (time × region), reading the data of the
`j`-th selected vertex. -/
def surfaceMaskerTransform (mk : SurfMask) (img : SurfImage) :
    Except String Mat2 :=
  if img.nV ≠ mk.n then Except.error vertexMismatchMsg
  else
    Except.ok
      ⟨img.nT, (maskedList mk.m mk.n).length,
        fun tp j => img.data ((maskedList mk.m mk.n).getD j 0) tp⟩

/-- Modelled from the spec: `SurfaceMasker.inverse_transform` is not under
`src/`.  It reconstructs a surface image from a signal matrix, scattering
column `j` of the signals back to the `j`-th selected vertex and filling
unselected vertices with `0`. -/
def surfaceMaskerInverse (mk : SurfMask) (signals : Mat2) : SurfImage :=
  ⟨mk.n, signals.rows,
    fun v tp => if mk.m v then signals.entry tp (rankBelow mk.m v) else 0⟩

lemma maskedList_true (n : ℕ) : maskedList (fun _ => true) n = List.range n := by
  simp [maskedList, List.filter_true]

lemma rankBelow_true (v : ℕ) : rankBelow (fun _ => true) v = v := by
  simp [rankBelow, List.filter_true]

/-- C1: for every surface image, fitting a `SurfaceMasker` with no mask on
that image and then applying `transform` followed by `inverse_transform`
yields an image whose data equals the original image's data exactly: the
fitted mask keeps every vertex, the signal matrix has one row per timepoint
and one column per vertex, and the reconstructed image agrees with the
original at every vertex `v < nV` and every timepoint. -/
theorem surface_masker_roundtrip_no_mask (img : SurfImage) (sig : Mat2)
    (hsig : surfaceMaskerTransform ⟨img.nV, fun _ => true⟩ img = Except.ok sig)
    (v tp : ℕ) (hv : v < img.nV) :
    surfaceMaskerFit none (some img) = Except.ok ⟨img.nV, fun _ => true⟩ ∧
    (surfaceMaskerTransform ⟨img.nV, fun _ => true⟩ img).isOk = true ∧
    sig.rows = img.nT ∧ sig.cols = img.nV ∧
    (surfaceMaskerInverse ⟨img.nV, fun _ => true⟩ sig).nV = img.nV ∧
    (surfaceMaskerInverse ⟨img.nV, fun _ => true⟩ sig).nT = img.nT ∧
    (surfaceMaskerInverse ⟨img.nV, fun _ => true⟩ sig).data v tp =
      img.data v tp := by
  have hred : surfaceMaskerTransform ⟨img.nV, fun _ => true⟩ img =
      Except.ok
        ⟨img.nT, (maskedList (fun _ => true) img.nV).length,
          fun tp j =>
            img.data ((maskedList (fun _ => true) img.nV).getD j 0) tp⟩ := by
    simp [surfaceMaskerTransform]
  rw [hred] at hsig
  obtain rfl : sig =
      ⟨img.nT, (maskedList (fun _ => true) img.nV).length,
        fun tp j =>
          img.data ((maskedList (fun _ => true) img.nV).getD j 0) tp⟩ :=
    (Except.ok.injEq _ _ ▸ hsig).symm
  refine ⟨rfl, by rw [hred]; rfl, rfl, ?_, rfl, rfl, ?_⟩
  · simp [maskedList_true]
  · show (if (fun _ => true) v then _ else (0 : ℚ)) = img.data v tp
    simp only [if_true]
    show img.data
        ((maskedList (fun _ => true) img.nV).getD (rankBelow (fun _ => true) v) 0) tp =
      img.data v tp
    rw [rankBelow_true, maskedList_true]
    have hlen : v < (List.range img.nV).length := by
      simpa using hv
    rw [List.getD_eq_getElem _ _ hlen, List.getElem_range]

/-- Concrete surface image used to witness C1. -/
def c1WitnessImg : SurfImage := ⟨2, 1, fun v _ => (v : ℚ) + 1⟩

/-- The signal matrix that `surfaceMaskerTransform` produces on
`c1WitnessImg` with the all-true mask. -/
def c1WitnessSig : Mat2 :=
  ⟨1, (maskedList (fun _ => true) 2).length,
    fun tp j => c1WitnessImg.data ((maskedList (fun _ => true) 2).getD j 0) tp⟩

/-- Witness for C1 at a concrete 2-vertex, 1-timepoint image. -/
theorem surface_masker_roundtrip_no_mask_witness :
    (surfaceMaskerTransform ⟨c1WitnessImg.nV, fun _ => true⟩ c1WitnessImg =
      Except.ok c1WitnessSig) ∧ 1 < c1WitnessImg.nV ∧
    (surfaceMaskerFit none (some c1WitnessImg) =
        Except.ok ⟨c1WitnessImg.nV, fun _ => true⟩ ∧
      (surfaceMaskerTransform ⟨c1WitnessImg.nV, fun _ => true⟩
          c1WitnessImg).isOk = true ∧
      c1WitnessSig.rows = c1WitnessImg.nT ∧
      c1WitnessSig.cols = c1WitnessImg.nV ∧
      (surfaceMaskerInverse ⟨c1WitnessImg.nV, fun _ => true⟩ c1WitnessSig).nV =
        c1WitnessImg.nV ∧
      (surfaceMaskerInverse ⟨c1WitnessImg.nV, fun _ => true⟩ c1WitnessSig).nT =
        c1WitnessImg.nT ∧
      (surfaceMaskerInverse ⟨c1WitnessImg.nV, fun _ => true⟩
          c1WitnessSig).data 1 0 = c1WitnessImg.data 1 0) :=
  ⟨rfl, by decide,
    surface_masker_roundtrip_no_mask c1WitnessImg c1WitnessSig rfl 1 0 (by decide)⟩

/-- C4: a `SurfaceMasker` built with a mask errors on `fit` when the image has
a different number of vertices than the mask, with a message mentioning the
number of vertices; a fitted masker likewise errors on `transform` for a
mismatched image; images with matching vertex counts are accepted by both. -/
theorem surface_masker_vertex_mismatch (mk : SurfMask) (img img2 : SurfImage)
    (hne : img.nV ≠ mk.n) (heq : img2.nV = mk.n) :
    surfaceMaskerFit (some mk) (some img) = Except.error vertexMismatchMsg ∧
    surfaceMaskerTransform mk img = Except.error vertexMismatchMsg ∧
    vertexMismatchMsg.data.take 18 = "Number of vertices".data ∧
    surfaceMaskerFit (some mk) (some img2) = Except.ok mk ∧
    (surfaceMaskerTransform mk img2).isOk = true := by
  refine ⟨?_, ?_, by decide, ?_, ?_⟩
  · simp [surfaceMaskerFit, hne]
  · simp [surfaceMaskerTransform, hne]
  · simp [surfaceMaskerFit, heq]
  · unfold surfaceMaskerTransform
    rw [if_neg (by simp [heq])]
    rfl

/-- Witness for C4: a 3-vertex mask, a 2-vertex image (rejected) and a
3-vertex image (accepted). -/
theorem surface_masker_vertex_mismatch_witness :
    ((⟨2, 1, fun _ _ => 0⟩ : SurfImage).nV ≠ (⟨3, fun _ => true⟩ : SurfMask).n) ∧
    ((⟨3, 1, fun _ _ => 0⟩ : SurfImage).nV = (⟨3, fun _ => true⟩ : SurfMask).n) ∧
    (surfaceMaskerFit (some ⟨3, fun _ => true⟩) (some ⟨2, 1, fun _ _ => 0⟩) =
        Except.error vertexMismatchMsg ∧
      surfaceMaskerTransform ⟨3, fun _ => true⟩ ⟨2, 1, fun _ _ => 0⟩ =
        Except.error vertexMismatchMsg ∧
      vertexMismatchMsg.data.take 18 = "Number of vertices".data ∧
      surfaceMaskerFit (some ⟨3, fun _ => true⟩) (some ⟨3, 1, fun _ _ => 0⟩) =
        Except.ok ⟨3, fun _ => true⟩ ∧
      (surfaceMaskerTransform ⟨3, fun _ => true⟩
          ⟨3, 1, fun _ _ => 0⟩).isOk = true) :=
  ⟨by decide, by decide,
    surface_masker_vertex_mismatch ⟨3, fun _ => true⟩ ⟨2, 1, fun _ _ => 0⟩
      ⟨3, 1, fun _ _ => 0⟩ (by decide) (by decide)⟩

/-- Explicit inverse of a square rational matrix via the adjugate; equals the
true inverse whenever the determinant is nonzero, and is computable. -/
def ratInv {n : ℕ} (M : Matrix (Fin n) (Fin n) ℚ) : Matrix (Fin n) (Fin n) ℚ :=
  (M.det)⁻¹ • M.adjugate

lemma ratInv_mul_self {n : ℕ} (M : Matrix (Fin n) (Fin n) ℚ)
    (hdet : M.det ≠ 0) : ratInv M * M = 1 := by
  rw [ratInv, smul_mul_assoc, Matrix.adjugate_mul, smul_smul,
    inv_mul_cancel₀ hdet, one_smul]

/-- Modelled from the spec: `SurfaceMapsMasker.transform` is not under `src/`
(only its tests are).  Given the fitted maps matrix `A` (vertices × regions)
and image data `B` (vertices × timepoints), it returns the least-squares
solution `x` (timepoints × regions) of `A @ x.T = B`, computed through the
normal equations `x.T = (A.T @ A)⁻¹ @ A.T @ B`. -/
def surfaceMapsTransform {v r t : ℕ} (A : Matrix (Fin v) (Fin r) ℚ)
    (B : Matrix (Fin v) (Fin t) ℚ) : Matrix (Fin t) (Fin r) ℚ :=
  (ratInv (A.transpose * A) * (A.transpose * B)).transpose

/-- Modelled from the spec: `SurfaceMapsMasker.inverse_transform` is not under
`src/`.  It reconstructs vertex data from region signals `x` as `A @ x.T`. -/
def surfaceMapsInverseTransform {v r t : ℕ} (A : Matrix (Fin v) (Fin r) ℚ)
    (x : Matrix (Fin t) (Fin r) ℚ) : Matrix (Fin v) (Fin t) ℚ :=
  A * x.transpose

/-- C3: for a fitted `SurfaceMapsMasker` with maps matrix `A` of full column
rank (the normal matrix `A.T @ A` is invertible), whenever an image's data `B`
equals `A @ x.T` for some region-signal matrix `x`, `transform` recovers `x`
exactly, and `inverse_transform` applied to the recovered signals
reconstructs image data equal to `A @ x.T = B`. -/
theorem surface_maps_masker_lstsq_roundtrip {v r t : ℕ}
    (A : Matrix (Fin v) (Fin r) ℚ) (x : Matrix (Fin t) (Fin r) ℚ)
    (B : Matrix (Fin v) (Fin t) ℚ)
    (hdet : (A.transpose * A).det ≠ 0) (hB : B = A * x.transpose) :
    surfaceMapsTransform A B = x ∧
    surfaceMapsInverseTransform A (surfaceMapsTransform A B) = B := by
  have hx : surfaceMapsTransform A B = x := by
    rw [surfaceMapsTransform, hB, ← Matrix.mul_assoc, ← Matrix.mul_assoc,
      Matrix.mul_assoc (ratInv (A.transpose * A)) A.transpose A,
      ratInv_mul_self _ hdet, Matrix.one_mul, Matrix.transpose_transpose]
  exact ⟨hx, by rw [hx, surfaceMapsInverseTransform, hB]⟩

/-- Concrete region-signal matrix used to witness C3. -/
def c3WitnessX : Matrix (Fin 1) (Fin 1) ℚ := Matrix.of fun _ _ => 2

/-- Witness for C3: maps matrix `A = 1` (one vertex, one region), signals
`x = (2)`, image data `B = A * x.T`. -/
theorem surface_maps_masker_lstsq_roundtrip_witness :
    (((1 : Matrix (Fin 1) (Fin 1) ℚ).transpose * 1).det ≠ 0) ∧
    (surfaceMapsTransform (1 : Matrix (Fin 1) (Fin 1) ℚ)
        (1 * c3WitnessX.transpose) = c3WitnessX ∧
      surfaceMapsInverseTransform (1 : Matrix (Fin 1) (Fin 1) ℚ)
          (surfaceMapsTransform 1 (1 * c3WitnessX.transpose)) =
        1 * c3WitnessX.transpose) :=
  ⟨by simp,
    surface_maps_masker_lstsq_roundtrip 1 c3WitnessX
      (1 * c3WitnessX.transpose) (by simp) rfl⟩

/-- A volumetric 4D image with voxels flattened: data of shape
`(n_voxels, n_scans)`, as a total function meaningful below the bounds. -/
structure VolImage where
  nVox : ℕ
  nT : ℕ
  data : ℕ → ℕ → ℚ

/-- The distinct non-background labels of a labels image (one label value per
voxel), in order of first appearance. -/
def distinctLabels (labels : List ℤ) (bg : ℤ) : List ℤ :=
  (labels.filter (fun x => x ≠ bg)).dedup

/-- The (flattened) voxels carrying a given label value. -/
def labelVoxels (labels : List ℤ) (lab : ℤ) : List ℕ :=
  (List.range labels.length).filter (fun vx => labels.getD vx 0 == lab)

/-- Mean of an image's data over a set of voxels at one scan (the default
`strategy='mean'` region reduction); the mean over no voxels is `0`. -/
def regionMean (img : VolImage) (voxels : List ℕ) (tp : ℕ) : ℚ :=
  (voxels.map (fun vx => img.data vx tp)).sum / voxels.length

/-- Modelled from the spec: `NiftiLabelsMasker.transform_single_imgs` (the
label reduction behind `MultiNiftiLabelsMasker`) is not under `src/`.  Per the
spec it reduces a 4D image to a 2D signal matrix of shape
`(number of scans, number of distinct labels)`, column `j` holding the mean
over the voxels of the `j`-th distinct non-background label. -/
def labelsTransformSingle (labels : List ℤ) (bg : ℤ) (img : VolImage) : Mat2 :=
  ⟨img.nT, (distinctLabels labels bg).length,
    fun tp j =>
      regionMean img (labelVoxels labels ((distinctLabels labels bg).getD j bg)) tp⟩

/-- The signal matrix of `surfaceMapsTransform` repackaged with its shape as
data, for shape statements. -/
def surfaceMapsTransformMat {v r t : ℕ} (A : Matrix (Fin v) (Fin r) ℚ)
    (B : Matrix (Fin v) (Fin t) ℚ) : Mat2 :=
  ⟨t, r,
    fun i j =>
      if h : i < t ∧ j < r then surfaceMapsTransform A B ⟨i, h.1⟩ ⟨j, h.2⟩
      else 0⟩

/-- C6: every extracted signal matrix is 2D with one row per scan and one
column per region: for the label reduction the number of columns equals the
number of distinct (deduplicated, non-background) labels, and for
`SurfaceMapsMasker` it equals the number of maps `r` while the number of rows
equals the number of timepoints `t`. -/
theorem extracted_signals_shape (labels : List ℤ) (bg : ℤ) (img : VolImage)
    {v r t : ℕ} (A : Matrix (Fin v) (Fin r) ℚ) (B : Matrix (Fin v) (Fin t) ℚ) :
    (labelsTransformSingle labels bg img).rows = img.nT ∧
    (labelsTransformSingle labels bg img).cols =
      (distinctLabels labels bg).length ∧
    (distinctLabels labels bg).Nodup ∧
    (∀ lab ∈ distinctLabels labels bg, lab ≠ bg) ∧
    (surfaceMapsTransformMat A B).rows = t ∧
    (surfaceMapsTransformMat A B).cols = r :=
  ⟨rfl, rfl, List.nodup_dedup _,
    fun lab hlab => by
      have hmem : lab ∈ labels.filter (fun x => x ≠ bg) :=
        List.mem_dedup.mp hlab
      simpa using (List.mem_filter.mp hmem).2,
    rfl, rfl⟩

section MultiNiftiLabelsMasker

variable {Img Conf SMk Sig : Type}

/-- Error message of `sklearn.utils.estimator_checks.check_is_fitted` on an
unfitted masker. -/
def notFittedMsg : String :=
  "This MultiNiftiLabelsMasker instance is not fitted yet."

/-- The confounds length-mismatch message of `transform_imgs`. -/
def confLenMsg (nc ni : ℕ) : String :=
  "number of confounds (" ++ toString nc ++ ") unequal to " ++
    "number of images (" ++ toString ni ++ ")."

/-- The sample_mask length-mismatch message of `transform_imgs`. -/
def sampleMaskLenMsg (ns ni : ℕ) : String :=
  "number of sample_mask (" ++ toString ns ++ ") unequal to " ++
    "number of images (" ++ toString ni ++ ")."

/-- The per-image argument list that `transform_imgs` pairs with the images:
`itertools.repeat(None, len(imgs_list))` when the optional list is absent,
otherwise the given list (each element wrapped as present). -/
def optionList {α : Type} (o : Option (List α)) (n : ℕ) : List (Option α) :=
  match o with
  | none => List.replicate n none
  | some xs => xs.map some

/-- The length validation that `transform_imgs` performs on its `confounds`
and `sample_mask` arguments: absent lists become `n` repetitions of `None`;
present lists must have exactly length `n` or a `ValueError` is raised. -/
def checkLen {α : Type} (msg : ℕ → ℕ → String) (o : Option (List α)) (n : ℕ) :
    Except String (List (Option α)) :=
  match o with
  | none => Except.ok (List.replicate n none)
  | some xs =>
      if xs.length ≠ n then Except.error (msg xs.length n)
      else Except.ok (xs.map some)

/-- `MultiNiftiLabelsMasker.transform_imgs` (src/nilearn/maskers/
multi_nifti_labels_masker.py).  `check_is_fitted` is modelled by the `fitted`
flag; the inherited `transform_single_imgs` (not under `src/`) is abstracted
as the parameter `single`; `self._cache` is a transparent wrapper; joblib's
`Parallel(n_jobs)(delayed(func)(...) for ... in zip(...))` returns the
results of independent calls in dispatch order and is embedded as a map over
the zipped per-image inputs. -/
def transform_imgs (fitted : Bool)
    (single : Img → Option Conf → Option SMk → Sig) (imgs_list : List Img)
    (confounds : Option (List Conf)) (sample_mask : Option (List SMk)) :
    Except String (List Sig) :=
  if fitted = false then Except.error notFittedMsg
  else
    match checkLen confLenMsg confounds imgs_list.length with
    | Except.error e => Except.error e
    | Except.ok confList =>
        match checkLen sampleMaskLenMsg sample_mask imgs_list.length with
        | Except.error e => Except.error e
        | Except.ok sampleList =>
            Except.ok
              ((imgs_list.zip (confList.zip sampleList)).map
                (fun p => single p.1 p.2.1 p.2.2))

/-- The argument of `MultiNiftiLabelsMasker.transform`: Python distinguishes
a value with no `__iter__` attribute, a string path (iterable, but explicitly
routed to the single-image branch), and an iterable of images.  The first two
carry the image they denote. -/
inductive ImgsArg (Img : Type) where
  | nonIterable (img : Img)
  | strPath (img : Img)
  | iterable (l : List Img)

/-- `MultiNiftiLabelsMasker.transform` (src/nilearn/maskers/
multi_nifti_labels_masker.py): after `check_is_fitted`, a non-iterable or
string argument is sent to `transform_single_imgs(imgs)` alone — the caller's
`confounds` and `sample_mask` are not passed — returning a single signal
matrix; otherwise `transform_imgs` is called with `n_jobs = self.n_jobs`,
returning a list. -/
def multiLabelsTransform (fitted : Bool)
    (single : Img → Option Conf → Option SMk → Sig) (imgs : ImgsArg Img)
    (confounds : Option (List Conf)) (sample_mask : Option (List SMk)) :
    Except String (Sig ⊕ List Sig) :=
  if fitted = false then Except.error notFittedMsg
  else
    match imgs with
    | ImgsArg.nonIterable im => Except.ok (Sum.inl (single im none none))
    | ImgsArg.strPath im => Except.ok (Sum.inl (single im none none))
    | ImgsArg.iterable l =>
        (transform_imgs fitted single l confounds sample_mask).map Sum.inr

lemma zip_replicate_replicate_map {A B C D : Type} (f : A × (B × C) → D)
    (l : List A) (b : B) (c : C) :
    (l.zip ((List.replicate l.length b).zip (List.replicate l.length c))).map f =
      l.map (fun a => f (a, b, c)) := by
  induction l with
  | nil => rfl
  | cons hd tl ih => simpa [List.replicate_succ] using ih

lemma checkLen_ok {α : Type} {msg : ℕ → ℕ → String} {o : Option (List α)}
    {n : ℕ} {l : List (Option α)} (h : checkLen msg o n = Except.ok l) :
    l = optionList o n ∧ l.length = n := by
  cases o with
  | none =>
      simp only [checkLen, Except.ok.injEq] at h
      subst h
      exact ⟨rfl, List.length_replicate _ _⟩
  | some xs =>
      simp only [checkLen] at h
      by_cases hx : xs.length = n
      · rw [if_neg (by simpa using hx)] at h
        obtain rfl : l = xs.map some := by simpa using h.symm
        exact ⟨rfl, by simpa using hx⟩
      · rw [if_pos (by simpa using hx)] at h
        exact absurd h (by simp)

lemma transform_imgs_ok_spec {Img Conf SMk Sig : Type}
    {single : Img → Option Conf → Option SMk → Sig} {imgs : List Img}
    {conf : Option (List Conf)} {sm : Option (List SMk)} {out : List Sig}
    (h : transform_imgs true single imgs conf sm = Except.ok out) :
    (optionList conf imgs.length).length = imgs.length ∧
    (optionList sm imgs.length).length = imgs.length ∧
    out =
      (imgs.zip
          ((optionList conf imgs.length).zip (optionList sm imgs.length))).map
        (fun p => single p.1 p.2.1 p.2.2) := by
  rw [transform_imgs] at h
  simp only [if_neg (by simp : ¬(true = false))] at h
  cases hc : checkLen confLenMsg conf imgs.length with
  | error e => rw [hc] at h; exact absurd h (by simp)
  | ok cl =>
      rw [hc] at h
      cases hs : checkLen sampleMaskLenMsg sm imgs.length with
      | error e => rw [hs] at h; exact absurd h (by simp)
      | ok sl =>
          rw [hs] at h
          obtain ⟨hcle, hcln⟩ := checkLen_ok hc
          obtain ⟨hsle, hsln⟩ := checkLen_ok hs
          subst hcle hsle
          refine ⟨hcln, hsln, ?_⟩
          simpa using h.symm

/-- C2: on a fitted masker, `transform_imgs` with matching-length `confounds`
and `sample_mask` lists returns a list of the same length as the input
images, whose `i`-th element is the signal matrix extracted from the `i`-th
image with the `i`-th confounds and `i`-th sample_mask, in input order; when
both optional lists are absent each image is processed with `None` for
both. -/
theorem transform_imgs_order_preserving_fanout {Img Conf SMk Sig : Type}
    (single : Img → Option Conf → Option SMk → Sig) (imgs : List Img)
    (cs : List Conf) (ss : List SMk)
    (hc : cs.length = imgs.length) (hs : ss.length = imgs.length)
    (i : ℕ) (hi : i < imgs.length) :
    transform_imgs true single imgs (some cs) (some ss) =
      Except.ok
        ((imgs.zip ((cs.map some).zip (ss.map some))).map
          (fun p => single p.1 p.2.1 p.2.2)) ∧
    ((imgs.zip ((cs.map some).zip (ss.map some))).map
        (fun p => single p.1 p.2.1 p.2.2)).length = imgs.length ∧
    ((imgs.zip ((cs.map some).zip (ss.map some))).map
        (fun p => single p.1 p.2.1 p.2.2))[i]? =
      some
        (single (imgs.get ⟨i, hi⟩) (some (cs.get ⟨i, by omega⟩))
          (some (ss.get ⟨i, by omega⟩))) ∧
    transform_imgs true single imgs none none =
      Except.ok (imgs.map (fun im => single im none none)) := by
  have hzl : (imgs.zip ((cs.map some).zip (ss.map some))).length =
      imgs.length := by
    simp [List.length_zip, hc, hs]
  refine ⟨?_, by simpa using hzl, ?_, ?_⟩
  · simp [transform_imgs, checkLen, hc, hs]
  · rw [List.getElem?_eq_getElem (by simpa [List.length_map, hzl] using hi)]
    simp [List.getElem_map, List.getElem_zip, List.get_eq_getElem]
  · simp only [transform_imgs, if_neg (by simp : ¬(true = false)), checkLen]
    rw [zip_replicate_replicate_map]

/-- Witness for C2 with two images, two confounds and two sample_masks. -/
theorem transform_imgs_order_preserving_fanout_witness :
    (([1, 2] : List ℕ).length = ([10, 20] : List ℕ).length) ∧
    (([3, 4] : List ℕ).length = ([10, 20] : List ℕ).length) ∧
    (1 < ([10, 20] : List ℕ).length) ∧
    (transform_imgs true
        (fun (a : ℕ) (b : Option ℕ) (c : Option ℕ) => (a, b, c)) [10, 20]
        (some [1, 2]) (some [3, 4]) =
      Except.ok [(10, some 1, some 3), (20, some 2, some 4)] ∧
    ([(10, some 1, some 3), (20, some 2, some 4)] :
        List (ℕ × Option ℕ × Option ℕ)).length = ([10, 20] : List ℕ).length ∧
    ([(10, some 1, some 3), (20, some 2, some 4)] :
        List (ℕ × Option ℕ × Option ℕ))[1]? = some (20, some 2, some 4) ∧
    transform_imgs true
        (fun (a : ℕ) (b : Option ℕ) (c : Option ℕ) => (a, b, c)) [10, 20]
        none none =
      Except.ok [(10, none, none), (20, none, none)]) :=
  ⟨rfl, rfl, by decide,
    transform_imgs_order_preserving_fanout
      (fun (a : ℕ) (b : Option ℕ) (c : Option ℕ) => (a, b, c)) [10, 20]
      [1, 2] [3, 4] rfl rfl 1 (by decide)⟩

/-- C5: on a fitted masker, `transform_imgs` with a confounds list whose
length differs from the number of images raises a `ValueError` whose message
states the two counts; with valid confounds but a sample_mask list whose
length differs it raises the corresponding `ValueError`; and no signal
extraction is performed: the result does not depend on the extraction
function at all (`single2` gives the same outcome as `single`). -/
theorem transform_imgs_length_mismatch_error {Img Conf SMk Sig : Type}
    (single single2 : Img → Option Conf → Option SMk → Sig)
    (imgs : List Img) (cs : List Conf) (ss : List SMk)
    (sm : Option (List SMk)) (conf2 : Option (List Conf))
    (hc : cs.length ≠ imgs.length) (hs : ss.length ≠ imgs.length)
    (h2 : (checkLen confLenMsg conf2 imgs.length).isOk = true) :
    transform_imgs true single imgs (some cs) sm =
      Except.error (confLenMsg cs.length imgs.length) ∧
    transform_imgs true single2 imgs (some cs) sm =
      transform_imgs true single imgs (some cs) sm ∧
    transform_imgs true single imgs conf2 (some ss) =
      Except.error (sampleMaskLenMsg ss.length imgs.length) ∧
    transform_imgs true single2 imgs conf2 (some ss) =
      transform_imgs true single imgs conf2 (some ss) := by
  have e1 : ∀ (f : Img → Option Conf → Option SMk → Sig),
      transform_imgs true f imgs (some cs) sm =
        Except.error (confLenMsg cs.length imgs.length) := by
    intro f
    simp [transform_imgs, checkLen, hc]
  have e2 : ∀ (f : Img → Option Conf → Option SMk → Sig),
      transform_imgs true f imgs conf2 (some ss) =
        Except.error (sampleMaskLenMsg ss.length imgs.length) := by
    intro f
    cases hcf : checkLen confLenMsg conf2 imgs.length with
    | error e => rw [hcf] at h2; exact Bool.noConfusion h2
    | ok cl =>
        simp only [transform_imgs, if_neg (by simp : ¬(true = false)), hcf]
        simp [checkLen, hs]
  exact ⟨e1 single, (e1 single2).trans (e1 single).symm,
    e2 single, (e2 single2).trans (e2 single).symm⟩

/-- Witness for C5: one image, two confounds, an empty sample_mask list. -/
theorem transform_imgs_length_mismatch_error_witness :
    (([1, 2] : List ℕ).length ≠ ([5] : List ℕ).length) ∧
    (([] : List ℕ).length ≠ ([5] : List ℕ).length) ∧
    ((checkLen confLenMsg (none : Option (List ℕ)) ([5] : List ℕ).length).isOk
      = true) ∧
    (transform_imgs true
        (fun (a : ℕ) (b : Option ℕ) (c : Option ℕ) => (a, b, c)) [5]
        (some [1, 2]) none =
      Except.error (confLenMsg 2 1) ∧
    transform_imgs true
        (fun (_ : ℕ) (_ : Option ℕ) (_ : Option ℕ) => ((0 : ℕ), (none : Option ℕ), (none : Option ℕ)))
        [5] (some [1, 2]) none =
      transform_imgs true
        (fun (a : ℕ) (b : Option ℕ) (c : Option ℕ) => (a, b, c)) [5]
        (some [1, 2]) none ∧
    transform_imgs true
        (fun (a : ℕ) (b : Option ℕ) (c : Option ℕ) => (a, b, c)) [5]
        none (some []) =
      Except.error (sampleMaskLenMsg 0 1) ∧
    transform_imgs true
        (fun (_ : ℕ) (_ : Option ℕ) (_ : Option ℕ) => ((0 : ℕ), (none : Option ℕ), (none : Option ℕ)))
        [5] none (some []) =
      transform_imgs true
        (fun (a : ℕ) (b : Option ℕ) (c : Option ℕ) => (a, b, c)) [5]
        none (some [])) :=
  ⟨by decide, by decide, rfl,
    transform_imgs_length_mismatch_error
      (fun (a : ℕ) (b : Option ℕ) (c : Option ℕ) => (a, b, c))
      (fun (_ : ℕ) (_ : Option ℕ) (_ : Option ℕ) => ((0 : ℕ), (none : Option ℕ), (none : Option ℕ)))
      [5] [1, 2] [] none none (by decide) (by decide) rfl⟩

/-- C7: each per-image output of `transform_imgs` depends only on that
image's own input triple: for two successful calls whose inputs agree at
position `i` (same image, same effective confound, same effective
sample_mask), the `i`-th outputs are equal regardless of any differences at
other positions. -/
theorem transform_imgs_per_image_noninterference {Img Conf SMk Sig : Type}
    (single : Img → Option Conf → Option SMk → Sig)
    (imgs1 imgs2 : List Img) (c1 c2 : Option (List Conf))
    (s1 s2 : Option (List SMk)) (out1 out2 : List Sig) (i : ℕ)
    (h1 : transform_imgs true single imgs1 c1 s1 = Except.ok out1)
    (h2 : transform_imgs true single imgs2 c2 s2 = Except.ok out2)
    (hi1 : i < imgs1.length) (hi2 : i < imgs2.length)
    (himg : imgs1.get ⟨i, hi1⟩ = imgs2.get ⟨i, hi2⟩)
    (hconf : (optionList c1 imgs1.length)[i]? = (optionList c2 imgs2.length)[i]?)
    (hsm : (optionList s1 imgs1.length)[i]? = (optionList s2 imgs2.length)[i]?) :
    out1[i]? = out2[i]? := by
  obtain ⟨hc1l, hs1l, hout1⟩ := transform_imgs_ok_spec h1
  obtain ⟨hc2l, hs2l, hout2⟩ := transform_imgs_ok_spec h2
  subst hout1 hout2
  have hz1 : (imgs1.zip
      ((optionList c1 imgs1.length).zip (optionList s1 imgs1.length))).length =
      imgs1.length := by simp [List.length_zip, hc1l, hs1l]
  have hz2 : (imgs2.zip
      ((optionList c2 imgs2.length).zip (optionList s2 imgs2.length))).length =
      imgs2.length := by simp [List.length_zip, hc2l, hs2l]
  rw [List.getElem?_eq_getElem (by simpa [List.length_map, hz1] using hi1),
    List.getElem?_eq_getElem (by simpa [List.length_map, hz2] using hi2)]
  simp only [List.getElem_map, List.getElem_zip]
  have e1 : imgs1[i] = imgs2[i] := by
    simpa [List.get_eq_getElem] using himg
  have e2 : (optionList c1 imgs1.length)[i] = (optionList c2 imgs2.length)[i] := by
    rw [List.getElem?_eq_getElem (by omega), List.getElem?_eq_getElem (by omega)]
      at hconf
    exact Option.some.inj hconf
  have e3 : (optionList s1 imgs1.length)[i] = (optionList s2 imgs2.length)[i] := by
    rw [List.getElem?_eq_getElem (by omega), List.getElem?_eq_getElem (by omega)]
      at hsm
    exact Option.some.inj hsm
  rw [e1, e2, e3]

/-- Witness for C7: the two calls share image `7` with confound `1` and
sample_mask `9` at position `0` but differ everywhere else (second call has
an extra image and different data at position `1`). -/
theorem transform_imgs_per_image_noninterference_witness :
    (transform_imgs true
        (fun (a : ℕ) (b : Option ℕ) (c : Option ℕ) => (a, b, c)) [7, 8]
        (some [1, 2]) (some [9, 10]) =
      Except.ok [(7, some 1, some 9), (8, some 2, some 10)]) ∧
    (transform_imgs true
        (fun (a : ℕ) (b : Option ℕ) (c : Option ℕ) => (a, b, c)) [7, 30, 40]
        (some [1, 5, 6]) (some [9, 11, 12]) =
      Except.ok [(7, some 1, some 9), (30, some 5, some 11), (40, some 6, some 12)]) ∧
    (([(7, some 1, some 9), (8, some 2, some 10)] :
        List (ℕ × Option ℕ × Option ℕ))[0]? =
      ([(7, some 1, some 9), (30, some 5, some 11), (40, some 6, some 12)] :
        List (ℕ × Option ℕ × Option ℕ))[0]?) :=
  ⟨rfl, rfl,
    transform_imgs_per_image_noninterference
      (fun (a : ℕ) (b : Option ℕ) (c : Option ℕ) => (a, b, c))
      [7, 8] [7, 30, 40] (some [1, 2]) (some [1, 5, 6]) (some [9, 10])
      (some [9, 11, 12]) _ _ 0 rfl rfl (by decide) (by decide) rfl rfl rfl⟩

/-- C8: on a fitted masker, `transform` with a non-iterable single image or a
string path returns the single 2D signal matrix of
`transform_single_imgs(imgs)`, and the caller's `confounds` and `sample_mask`
are silently ignored: the result is the same as with no confounds and no
sample_mask. -/
theorem multi_labels_transform_single_branch {Img Conf SMk Sig : Type}
    (single : Img → Option Conf → Option SMk → Sig) (im : Img)
    (conf conf' : Option (List Conf)) (sm sm' : Option (List SMk)) :
    multiLabelsTransform true single (ImgsArg.nonIterable im) conf sm =
      Except.ok (Sum.inl (single im none none)) ∧
    multiLabelsTransform true single (ImgsArg.strPath im) conf sm =
      Except.ok (Sum.inl (single im none none)) ∧
    multiLabelsTransform true single (ImgsArg.nonIterable im) conf sm =
      multiLabelsTransform true single (ImgsArg.nonIterable im) conf' sm' ∧
    multiLabelsTransform true single (ImgsArg.strPath im) conf sm =
      multiLabelsTransform true single (ImgsArg.strPath im) none none :=
  ⟨rfl, rfl, rfl, rfl⟩

end MultiNiftiLabelsMasker

/-- A numpy array as `pad_contrast_matrix` sees it: 1-dimensional with `n`
entries, or 2-dimensional with `r × c` entries. -/
inductive NpArr where
  | one (n : ℕ) (entry : ℕ → ℚ)
  | two (r c : ℕ) (entry : ℕ → ℕ → ℚ)

/-- `nb_columns_contrast_def` of `pad_contrast_matrix`:
`shape[0]` for a 1-D array, `shape[1]` for a 2-D array. -/
def NpArr.nbCols : NpArr → ℕ
  | NpArr.one n _ => n
  | NpArr.two _ c _ => c

/-- The `UserWarning` message issued by `pad_contrast_matrix` before
padding. -/
def padWarnMsg (k : ℕ) : String :=
  "Contrasts will be padded with " ++ toString k ++ " column(s) of zeros."

/-- `pad_contrast_matrix` (src/nilearn/plotting/matrix_plotting.py), for an
array contrast (the string branch through `expression_to_contrast_vector` is
outside this repository's source).  When the widths already match the input
is returned with no warning.  Otherwise the `UserWarning` is issued and
`np.pad(contrast_def, ((0, 0), (0, horizontal_padding)), ...)` runs: on a
2-D array with positive padding it appends zero columns; on a 1-D array the
two-axis `pad_width` cannot be broadcast to one axis and `np.pad` raises
`ValueError`; a negative `horizontal_padding` also raises `ValueError`.  The
result carries the warning message when one was issued before returning. -/
def pad_contrast_matrix (contrast : NpArr) (nDesignCols : ℕ) :
    Except String (NpArr × Option String) :=
  if nDesignCols = contrast.nbCols then Except.ok (contrast, none)
  else
    match contrast with
    | NpArr.one _ _ =>
        Except.error
          "Unable to create correctly shaped tuple from ((0, 0), (0, h))"
    | NpArr.two r c e =>
        if c < nDesignCols then
          Except.ok
            (NpArr.two r nDesignCols (fun i j => if j < c then e i j else 0),
              some (padWarnMsg (nDesignCols - c)))
        else Except.error "index can't contain negative values"

/-- Counterexample to C9 as stated: the 1-D contrast `[1, 1]` has fewer
columns (2) than a 3-column design matrix, yet `pad_contrast_matrix` does not
return successfully — `np.pad` raises a `ValueError` because the two-axis
`pad_width ((0, 0), (0, 1))` does not fit a 1-dimensional array. -/
theorem pad_contrast_matrix_one_dim_fails :
    (NpArr.one 2 (fun _ => 1)).nbCols < 3 ∧
    (pad_contrast_matrix (NpArr.one 2 (fun _ => 1)) 3).isOk = false :=
  ⟨by decide, rfl⟩

/-- C9 (amended): for every 2-D contrast array with fewer columns than the
design matrix, `pad_contrast_matrix` returns the array right-padded with zero
columns to exactly the design-matrix width and issues a `UserWarning` stating
the number of padded columns; when the widths already match (1-D or 2-D) the
input is returned unchanged with no warning; a 1-D contrast narrower than the
design matrix makes `np.pad` raise a `ValueError` instead. -/
theorem pad_contrast_matrix_spec (r c nD : ℕ) (e : ℕ → ℕ → ℚ) (a : NpArr)
    (n1 : ℕ) (e1 : ℕ → ℚ)
    (hlt : c < nD) (hm : a.nbCols = nD) (h1 : n1 < nD) :
    pad_contrast_matrix (NpArr.two r c e) nD =
      Except.ok
        (NpArr.two r nD (fun i j => if j < c then e i j else 0),
          some (padWarnMsg (nD - c))) ∧
    pad_contrast_matrix a nD = Except.ok (a, none) ∧
    (pad_contrast_matrix (NpArr.one n1 e1) nD).isOk = false := by
  refine ⟨?_, ?_, ?_⟩
  · rw [pad_contrast_matrix, if_neg (by simp [NpArr.nbCols]; omega)]
    simp [hlt]
  · rw [pad_contrast_matrix.eq_def, if_pos hm.symm]
  · rw [pad_contrast_matrix, if_neg (by simp [NpArr.nbCols]; omega)]
    rfl

/-- Witness for the amended C9: a `1 × 1` contrast against a 2-column design
matrix is padded with one zero column and warned about; a matching-width 2-D
contrast is returned unchanged; a 1-column 1-D contrast fails. -/
theorem pad_contrast_matrix_spec_witness :
    ((1 : ℕ) < 2) ∧ ((NpArr.two 1 2 fun _ _ => 3).nbCols = 2) ∧ ((1 : ℕ) < 2) ∧
    (pad_contrast_matrix (NpArr.two 1 1 fun _ _ => 5) 2 =
      Except.ok
        (NpArr.two 1 2 (fun i j => if j < 1 then (fun _ _ => (5 : ℚ)) i j else 0),
          some (padWarnMsg (2 - 1))) ∧
    pad_contrast_matrix (NpArr.two 1 2 fun _ _ => 3) 2 =
      Except.ok (NpArr.two 1 2 (fun _ _ => 3), none) ∧
    (pad_contrast_matrix (NpArr.one 1 fun _ => 4) 2).isOk = false) :=
  ⟨by decide, by decide, by decide,
    pad_contrast_matrix_spec 1 1 2 (fun _ _ => 5) (NpArr.two 1 2 fun _ _ => 3)
      1 (fun _ => 4) (by decide) (by decide) (by decide)⟩

/-- A Python value accepted by `plot_matrix`'s `reorder` parameter: a boolean
or a string (the linkage method). -/
inductive PyVal where
  | pyBool (b : Bool)
  | pyStr (s : String)
deriving DecidableEq

/-- The `labels` argument of `plot_matrix`: `None`, `False`, or a list (a
numpy array is converted to a list by `_sanitize_labels` first). -/
inductive LabelsArg where
  | pyNone
  | pyFalse
  | pyList (l : List String)
deriving DecidableEq

/-- Python truthiness of the `labels` argument: `None`, `False` and the empty
list are falsy. -/
def labelsFalsy : LabelsArg → Bool
  | LabelsArg.pyNone => true
  | LabelsArg.pyFalse => true
  | LabelsArg.pyList l => l.isEmpty

/-- The length of a labels argument when it is a list (`0` otherwise). -/
def labelsLen : LabelsArg → ℕ
  | LabelsArg.pyList l => l.length
  | _ => 0

/-- `_sanitize_labels` (src/nilearn/plotting/matrix_plotting.py): a truthy
labels list whose length differs from the matrix size raises `ValueError`;
anything else passes through unchanged. -/
def sanitizeLabels (matRows : ℕ) (labels : LabelsArg) :
    Except String LabelsArg :=
  if labelsFalsy labels = false ∧ labelsLen labels ≠ matRows then
    Except.error "Length of labels unequal to length of matrix."
  else Except.ok labels

/-- The message of `_sanitize_reorder` for an invalid `reorder` value. -/
def reorderErrMsg : String :=
  "Parameter reorder needs to be one of:\nTrue, False, \"single\", \"complete\", \"average\"."

/-- The message of `_reorder_matrix` when labels are missing. -/
def labelsNeededMsg : String := "Labels are needed to show the reordering."

/-- `VALID_REORDER_ARGS` of `_sanitize_reorder`. -/
def VALID_REORDER_ARGS : List PyVal :=
  [PyVal.pyBool true, PyVal.pyBool false, PyVal.pyStr "single",
    PyVal.pyStr "complete", PyVal.pyStr "average"]

/-- `_sanitize_reorder` (src/nilearn/plotting/matrix_plotting.py): a value
outside `VALID_REORDER_ARGS` raises `ValueError`; `True` is replaced by the
`'average'` linkage method; other valid values pass through. -/
def sanitizeReorder (reorder : PyVal) : Except String PyVal :=
  if reorder ∈ VALID_REORDER_ARGS then
    Except.ok (if reorder = PyVal.pyBool true then PyVal.pyStr "average" else reorder)
  else Except.error reorderErrMsg

/-- `_reorder_matrix` (src/nilearn/plotting/matrix_plotting.py), reduced to
the part the claim is about: falsy labels raise `ValueError`; otherwise the
matrix and labels are reordered using the given linkage `method` (the
scipy linkage computation itself is outside this repository).  The returned
value records which linkage method was used. -/
def reorderMatrixCheck (labels : LabelsArg) (method : String) :
    Except String String :=
  if labelsFalsy labels = true then Except.error labelsNeededMsg
  else Except.ok method

/-- The `reorder` control flow of `plot_matrix`
(src/nilearn/plotting/matrix_plotting.py): `_sanitize_labels` then
`_sanitize_reorder`, then — only when the sanitized `reorder` is truthy —
`_reorder_matrix`.  Returns the linkage method used, or `none` when no
reordering happens. -/
def plotMatrixReorder (matRows : ℕ) (labels : LabelsArg) (reorder : PyVal) :
    Except String (Option String) :=
  match sanitizeLabels matRows labels with
  | Except.error e => Except.error e
  | Except.ok labels2 =>
      match sanitizeReorder reorder with
      | Except.error e => Except.error e
      | Except.ok r =>
          match r with
          | PyVal.pyBool _ => Except.ok none
          | PyVal.pyStr m =>
              match reorderMatrixCheck labels2 m with
              | Except.error e => Except.error e
              | Except.ok m2 => Except.ok (some m2)

lemma sanitizeLabels_falsy {n : ℕ} {labels : LabelsArg}
    (h : labelsFalsy labels = true) : sanitizeLabels n labels = Except.ok labels := by
  rw [sanitizeLabels, if_neg]
  simp [h]

/-- C10: in `plot_matrix`, with `reorder` not `False` — a valid linkage
string or `True` — falsy labels (`None`, `False`, or an empty list) raise the
`ValueError` of `_reorder_matrix`; a `reorder` value outside
`{True, False, 'single', 'complete', 'average'}` raises the `ValueError` of
`_sanitize_reorder`; and `reorder=True` with usable labels runs the
`'average'` linkage method. -/
theorem plot_matrix_reorder_validation (n : ℕ) (labels labelsF : LabelsArg)
    (m : String) (bad : PyVal)
    (hfal : labelsFalsy labelsF = true)
    (hm : m ∈ (["single", "complete", "average"] : List String))
    (hbad : bad ∉ VALID_REORDER_ARGS)
    (hokL : sanitizeLabels n labels = Except.ok labels)
    (hnf : labelsFalsy labels = false) :
    plotMatrixReorder n labelsF (PyVal.pyStr m) = Except.error labelsNeededMsg ∧
    plotMatrixReorder n labelsF (PyVal.pyBool true) = Except.error labelsNeededMsg ∧
    plotMatrixReorder n labels bad = Except.error reorderErrMsg ∧
    plotMatrixReorder n labels (PyVal.pyBool true) = Except.ok (some "average") := by
  have hmem : PyVal.pyStr m ∈ VALID_REORDER_ARGS := by
    simp only [VALID_REORDER_ARGS, List.mem_cons, List.mem_singleton]
    rcases (by simpa using hm : m = "single" ∨ m = "complete" ∨ m = "average")
      with h | h | h <;> simp [h]
  refine ⟨?_, ?_, ?_, ?_⟩
  · rw [plotMatrixReorder, sanitizeLabels_falsy hfal, sanitizeReorder,
      if_pos hmem]
    have : (PyVal.pyStr m = PyVal.pyBool true) = False := by simp
    rw [if_neg (by simp)]
    simp [reorderMatrixCheck, hfal]
  · rw [plotMatrixReorder, sanitizeLabels_falsy hfal, sanitizeReorder,
      if_pos (by simp [VALID_REORDER_ARGS]), if_pos rfl]
    simp [reorderMatrixCheck, hfal]
  · rw [plotMatrixReorder, hokL, sanitizeReorder, if_neg hbad]
  · rw [plotMatrixReorder, hokL, sanitizeReorder,
      if_pos (by simp [VALID_REORDER_ARGS]), if_pos rfl]
    simp [reorderMatrixCheck, hnf]

/-- Witness for C10: a 1×1 matrix, usable labels `["a"]`, falsy labels
`None`, valid linkage `"single"`, and the invalid reorder value `"ward"`. -/
theorem plot_matrix_reorder_validation_witness :
    (labelsFalsy LabelsArg.pyNone = true) ∧
    ("single" ∈ (["single", "complete", "average"] : List String)) ∧
    (PyVal.pyStr "ward" ∉ VALID_REORDER_ARGS) ∧
    (sanitizeLabels 1 (LabelsArg.pyList ["a"]) =
      Except.ok (LabelsArg.pyList ["a"])) ∧
    (labelsFalsy (LabelsArg.pyList ["a"]) = false) ∧
    (plotMatrixReorder 1 LabelsArg.pyNone (PyVal.pyStr "single") =
        Except.error labelsNeededMsg ∧
      plotMatrixReorder 1 LabelsArg.pyNone (PyVal.pyBool true) =
        Except.error labelsNeededMsg ∧
      plotMatrixReorder 1 (LabelsArg.pyList ["a"]) (PyVal.pyStr "ward") =
        Except.error reorderErrMsg ∧
      plotMatrixReorder 1 (LabelsArg.pyList ["a"]) (PyVal.pyBool true) =
        Except.ok (some "average")) :=
  ⟨rfl, by decide, by decide,
    by simp [sanitizeLabels, labelsFalsy, labelsLen], rfl,
    plot_matrix_reorder_validation 1 (LabelsArg.pyList ["a"]) LabelsArg.pyNone
      "single" (PyVal.pyStr "ward") rfl (by decide) (by decide)
      (by simp [sanitizeLabels, labelsFalsy, labelsLen]) rfl⟩

end Nilearn
